import Mathlib

/-!
Verification of the resilience layer of the ai-health-tracker repository:
the circuit breaker (`src/utils/circuit-breaker.ts`), the retry-with-backoff
executor (`src/utils/retry.ts`), and the LiteLLM provider gateway
(fallback chain plus response cache).

The TypeScript is shallowly embedded: each class is a record of its mutable
fields, each method a pure function from the old record (and the current
clock reading) to the new record plus the observable result. An async
operation passed to a wrapper is represented by the outcome it would produce
if invoked (`Except`), so "the operation was not invoked" is visible as the
result not depending on that outcome. Clock readings (`Date.now()`) are
integer epoch milliseconds passed explicitly.
-/

namespace HealthTracker

/-- The three circuit states of `circuit-breaker.ts`. -/
inductive CircuitState where
  | CLOSED
  | OPEN
  | HALF_OPEN
deriving DecidableEq, Repr

/-- Configuration of a circuit breaker (`CircuitBreakerConfig` in the source).
`R` is the result type of guarded operations; the optional `fallback` is the
value the source's fallback thunk would resolve to. -/
structure CircuitBreakerConfig (R : Type) where
  name : String
  failureThreshold : Nat
  resetTimeout : Int
  successThreshold : Nat
  timeout : Int
  fallback : Option R

/-- The mutable fields of the `CircuitBreaker` class. -/
structure CircuitBreaker where
  state : CircuitState
  failures : Nat
  successes : Nat
  lastFailureTime : Option Int
  totalCalls : Nat
  totalFailures : Nat
  totalSuccesses : Nat
deriving DecidableEq, Repr

namespace CircuitBreaker

/-- Field initializers of the class: CLOSED, all counters zero, no failure seen. -/
def init : CircuitBreaker :=
  { state := .CLOSED, failures := 0, successes := 0, lastFailureTime := none,
    totalCalls := 0, totalFailures := 0, totalSuccesses := 0 }

/-- Source method `open()` (renamed: `open` is a Lean keyword): set state to
OPEN and reset `successes`. The source does not touch `failures` here. -/
def openCircuit (cb : CircuitBreaker) : CircuitBreaker :=
  { cb with state := .OPEN, successes := 0 }

/-- Source method `close()`: set state to CLOSED and zero both streak counters. -/
def close (cb : CircuitBreaker) : CircuitBreaker :=
  { cb with state := .CLOSED, failures := 0, successes := 0 }

/-- Source method `onSuccess()`. -/
def onSuccess {R : Type} (cfg : CircuitBreakerConfig R) (cb : CircuitBreaker) :
    CircuitBreaker :=
  let cb := { cb with totalSuccesses := cb.totalSuccesses + 1 }
  if cb.state = .HALF_OPEN then
    let cb := { cb with successes := cb.successes + 1 }
    if cfg.successThreshold ≤ cb.successes then cb.close else cb
  else
    { cb with failures := 0 }

/-- Source method `onFailure()`; `now` is the `Date.now()` reading taken there. -/
def onFailure {R : Type} (cfg : CircuitBreakerConfig R) (cb : CircuitBreaker)
    (now : Int) : CircuitBreaker :=
  let cb := { cb with totalFailures := cb.totalFailures + 1,
                      failures := cb.failures + 1,
                      lastFailureTime := some now }
  if cb.state = .HALF_OPEN then cb.openCircuit
  else if cfg.failureThreshold ≤ cb.failures then cb.openCircuit
  else cb

/-- Source method `shouldAttemptReset()`: true when no failure was ever
recorded, else when `resetTimeout` has elapsed since the last failure. -/
def shouldAttemptReset {R : Type} (cfg : CircuitBreakerConfig R)
    (cb : CircuitBreaker) (now : Int) : Bool :=
  match cb.lastFailureTime with
  | none => true
  | some t => decide (cfg.resetTimeout ≤ now - t)

/-- Observable outcome of one `execute` call: the operation ran and returned
(`ok`), ran and threw (`opError`, the error is re-raised), or the circuit was
OPEN and the call was served by the fallback / rejected with the
circuit-open error. -/
inductive ExecResult (Er R : Type) where
  | ok (r : R)
  | opError (e : Er)
  | fallbackUsed (r : R)
  | circuitOpen
deriving DecidableEq, Repr

/-- Whether the underlying operation was invoked for this result. -/
def ExecResult.invokedOp {Er R : Type} : ExecResult Er R → Bool
  | .ok _ => true
  | .opError _ => true
  | .fallbackUsed _ => false
  | .circuitOpen => false

/-- Source method `handleOpenCircuit()`: serve the configured fallback, or
throw the circuit-open error. -/
def handleOpenCircuit {Er R : Type} (cfg : CircuitBreakerConfig R) :
    ExecResult Er R :=
  match cfg.fallback with
  | some r => .fallbackUsed r
  | none => .circuitOpen

/-- The try/catch body of `execute`: run the operation outcome and update the
counters. A timeout in `executeWithTimeout` surfaces as an `Except.error`
outcome, exactly as the source turns it into a rejection. -/
def runOperation {Er R : Type} (cfg : CircuitBreakerConfig R)
    (cb : CircuitBreaker) (now : Int) (op : Except Er R) :
    CircuitBreaker × ExecResult Er R :=
  match op with
  | .ok r => (onSuccess cfg cb, .ok r)
  | .error e => (onFailure cfg cb now, .opError e)

/-- Source method `execute(fn)`; `op` is the outcome `fn` would produce if it
were invoked, `now` the clock reading during the call. -/
def execute {Er R : Type} (cfg : CircuitBreakerConfig R) (cb : CircuitBreaker)
    (now : Int) (op : Except Er R) : CircuitBreaker × ExecResult Er R :=
  let cb := { cb with totalCalls := cb.totalCalls + 1 }
  if cb.state = .OPEN then
    if shouldAttemptReset cfg cb now then
      runOperation cfg { cb with state := .HALF_OPEN } now op
    else
      (cb, handleOpenCircuit cfg)
  else
    runOperation cfg cb now op

/-- Source method `reset()`: force CLOSED, zero the streak counters, clear the
failure timestamp. The lifetime totals are not touched by this method. -/
def reset (cb : CircuitBreaker) : CircuitBreaker :=
  { cb with state := .CLOSED, failures := 0, successes := 0,
            lastFailureTime := none }

/-- `n` consecutive failing `execute` calls, all observed at clock reading `t`. -/
def failCalls {R : Type} (cfg : CircuitBreakerConfig R) (t : Int) :
    Nat → CircuitBreaker → CircuitBreaker
  | 0, cb => cb
  | n + 1, cb => failCalls cfg t n (execute cfg cb t (Except.error () : Except Unit R)).1

/-- `n` consecutive succeeding `execute` calls returning `r`, all at clock `t`. -/
def succCalls {R : Type} (cfg : CircuitBreakerConfig R) (r : R) (t : Int) :
    Nat → CircuitBreaker → CircuitBreaker
  | 0, cb => cb
  | n + 1, cb => succCalls cfg r t n (execute cfg cb t (Except.ok r : Except Unit R)).1

/-- One externally triggered breaker operation: an `execute` call at some
clock reading with some operation outcome, or a manual `reset()`. -/
inductive BreakerOp (R : Type) where
  | exec (now : Int) (op : Except Unit R)
  | reset

/-- Apply one breaker operation to the breaker's fields. -/
def applyOp {R : Type} (cfg : CircuitBreakerConfig R) :
    BreakerOp R → CircuitBreaker → CircuitBreaker
  | .exec now op, cb => (execute cfg cb now op).1
  | .reset, cb => reset cb

/-- Apply a sequence of breaker operations in order. -/
def applyOps {R : Type} (cfg : CircuitBreakerConfig R) :
    List (BreakerOp R) → CircuitBreaker → CircuitBreaker
  | [], cb => cb
  | o :: os, cb => applyOps cfg os (applyOp cfg o cb)

end CircuitBreaker

/-! Retry executor (`src/utils/retry.ts`). Delays are rationals, idealizing
the JavaScript floating-point millisecond values. -/

/-- `RetryConfig` of the source; `isRetryable` is the optional predicate. -/
structure RetryConfig (E : Type) where
  maxRetries : Nat
  initialDelay : ℚ
  maxDelay : ℚ
  backoffMultiplier : ℚ
  isRetryable : Option (E → Bool)

/-- Loop body of `withRetry`. `fn i` is the outcome of the `i`-th invocation
of the operation, `remaining` the retries still allowed (`maxRetries` minus
the current attempt index). Returns the final result, the number of times the
operation was invoked, and the list of sleep durations in order. -/
def retryGo {E A : Type} (fn : Nat → Except E A) (cfg : RetryConfig E) :
    Nat → ℚ → Nat → Except E A × Nat × List ℚ
  | attempt, _delay, 0 =>
    match fn attempt with
    | .ok a => (.ok a, 1, [])
    | .error e => (.error e, 1, [])
  | attempt, delay, r + 1 =>
    match fn attempt with
    | .ok a => (.ok a, 1, [])
    | .error e =>
      match cfg.isRetryable with
      | some p =>
        if p e then
          let rest := retryGo fn cfg (attempt + 1)
            (min (delay * cfg.backoffMultiplier) cfg.maxDelay) r
          (rest.1, rest.2.1 + 1, delay :: rest.2.2)
        else
          (.error e, 1, [])
      | none =>
        let rest := retryGo fn cfg (attempt + 1)
          (min (delay * cfg.backoffMultiplier) cfg.maxDelay) r
        (rest.1, rest.2.1 + 1, delay :: rest.2.2)

/-- Source function `withRetry(fn, config)`: attempt 0 runs immediately with
delay `initialDelay` pending; at most `maxRetries` further attempts follow. -/
def withRetry {E A : Type} (fn : Nat → Except E A) (cfg : RetryConfig E) :
    Except E A × Nat × List ℚ :=
  retryGo fn cfg 0 cfg.initialDelay cfg.maxRetries

/-- The closed-form delay sequence induced by the loop's update
`delay = min(delay * backoffMultiplier, maxDelay)` starting from
`initialDelay`. -/
def delaySeq {E : Type} (cfg : RetryConfig E) : Nat → ℚ
  | 0 => cfg.initialDelay
  | i + 1 => min (delaySeq cfg i * cfg.backoffMultiplier) cfg.maxDelay

/-! LiteLLM provider gateway (fallback chain and response cache). -/

/-- A chat message, the unit of the cache key. -/
structure Message where
  role : String
  content : String
deriving DecidableEq, Repr

/-- `CacheEntry` of the source. -/
structure CacheEntry where
  response : String
  timestamp : Int
deriving DecidableEq, Repr

/-- The `Map<string, CacheEntry>` of the adapter, as an insertion-ordered
association list. `JSON.stringify` of the message list is injective on message
lists, so the key is modelled as the list itself. -/
abbrev Cache := List (List Message × CacheEntry)

namespace Cache

/-- `Map.get`. -/
def lookup (c : Cache) (k : List Message) : Option CacheEntry :=
  (c.find? (fun p => p.1 = k)).map (fun p => p.2)

/-- `Map.delete`. -/
def erase (c : Cache) (k : List Message) : Cache :=
  c.filter (fun p => p.1 ≠ k)

/-- `Map.set`: an existing key keeps its insertion position and gets the new
value; a new key is appended at the end. -/
def set (c : Cache) (k : List Message) (e : CacheEntry) : Cache :=
  if c.any (fun p => p.1 = k) then
    c.map (fun p => if p.1 = k then (k, e) else p)
  else
    c ++ [(k, e)]

end Cache

/-- The configuration fields of `LiteLLMConfig` that the chat path reads. -/
structure LiteLLMConfig where
  primaryModel : String
  fallbackModels : List String
  cacheEnabled : Bool
  cacheTTLSeconds : ℚ
  circuitBreakerEnabled : Bool

/-- Error surfaced by `executeWithFallbacks`: the last provider's error, or
the `new Error('All models failed')` that guards an empty model list. -/
inductive GatewayError (Er : Type) where
  | providerError (e : Er)
  | allModelsFailed
deriving DecidableEq, Repr

namespace LiteLLMAdapter

/-- Source method `getFromCache(key)`: `null` when caching is disabled or the
key is absent; a stale entry (age in seconds above the TTL) is deleted and
treated as absent; otherwise the cached response. Returns the read result and
the cache after the lazy purge. -/
def getFromCache (cfg : LiteLLMConfig) (c : Cache) (now : Int)
    (k : List Message) : Option String × Cache :=
  if cfg.cacheEnabled then
    match Cache.lookup c k with
    | none => (none, c)
    | some entry =>
      if cfg.cacheTTLSeconds < ((now - entry.timestamp : Int) : ℚ) / 1000 then
        (none, Cache.erase c k)
      else
        (some entry.response, c)
  else (none, c)

/-- Source method `setCache(key, response)`: insert, then if the map holds
more than 1000 entries evict the oldest-inserted key. -/
def setCache (c : Cache) (now : Int) (k : List Message) (response : String) :
    Cache :=
  let c := Cache.set c k { response := response, timestamp := now }
  if 1000 < c.length then
    match c.head? with
    | some p => Cache.erase c p.1
    | none => c
  else c

/-- The loop of `executeWithFallbacks`: try each model in order; on the first
success write the response to cache (when caching is enabled) and stop; on
failure remember the error and continue; when the list is exhausted throw the
last error (`lastError || new Error('All models failed')`). Also counts how
many models were actually called. -/
def tryModels {Er : Type} (cacheEnabled : Bool) (call : String → Except Er String)
    (now : Int) (k : List Message) :
    List String → Option Er → Cache → Except (GatewayError Er) String × Cache × Nat
  | [], lastError, c =>
    match lastError with
    | some e => (.error (.providerError e), c, 0)
    | none => (.error .allModelsFailed, c, 0)
  | m :: rest, _lastError, c =>
    match call m with
    | .ok response =>
      (.ok response, (if cacheEnabled then setCache c now k response else c), 1)
    | .error e =>
      let r := tryModels cacheEnabled call now k rest (some e) c
      (r.1, r.2.1, r.2.2 + 1)

/-- Source method `executeWithFallbacks(messages, cacheKey)`: the model chain
is the primary model followed by the configured fallbacks; `call m` is the
outcome `callModel(m, messages)` would produce. -/
def executeWithFallbacks {Er : Type} (cfg : LiteLLMConfig)
    (call : String → Except Er String) (now : Int) (k : List Message)
    (c : Cache) : Except (GatewayError Er) String × Cache × Nat :=
  tryModels cfg.cacheEnabled call now k (cfg.primaryModel :: cfg.fallbackModels)
    none c

/-- The circuit-breaker configuration the adapter constructor installs. -/
def breakerConfig : CircuitBreakerConfig String :=
  { name := "LiteLLM-AI", failureThreshold := 3, resetTimeout := 60000,
    successThreshold := 2, timeout := 30000, fallback := none }

/-- The adapter state the chat path mutates: the response cache and the
breaker's fields. -/
structure AdapterState where
  cache : Cache
  breaker : CircuitBreaker
deriving Repr

/-- Result of a `chatSync` call: a cache hit returned immediately, a result
propagated through `circuitBreaker.execute`, or a direct result when the
breaker is disabled. -/
inductive ChatSyncResult (Er : Type) where
  | cached (r : String)
  | viaBreaker (r : CircuitBreaker.ExecResult (GatewayError Er) String)
  | direct (r : Except (GatewayError Er) String)
deriving Repr

/-- One `chatSync` call: its result, the adapter state after it, and the
number of provider (model) invocations it performed. -/
structure ChatOutcome (Er : Type) where
  result : ChatSyncResult Er
  state : AdapterState
  providerCalls : Nat

/-- Source method `chatSync(messages)`: compute the cache key, return a fresh
cache hit immediately (no provider call, breaker untouched); on a miss run
`executeWithFallbacks`, through `circuitBreaker.execute` when the breaker is
enabled. The fallback loop's cache write and provider calls take effect only
if the breaker actually invoked the operation. -/
def chatSync {Er : Type} (cfg : LiteLLMConfig) (st : AdapterState) (now : Int)
    (messages : List Message) (call : String → Except Er String) :
    ChatOutcome Er :=
  let k := messages
  match getFromCache cfg st.cache now k with
  | (some r, c) => ⟨.cached r, { st with cache := c }, 0⟩
  | (none, c) =>
    let run := executeWithFallbacks cfg call now k c
    if cfg.circuitBreakerEnabled then
      let (cb, er) := CircuitBreaker.execute breakerConfig st.breaker now run.1
      if er.invokedOp then
        ⟨.viaBreaker er, ⟨run.2.1, cb⟩, run.2.2⟩
      else
        ⟨.viaBreaker er, ⟨c, cb⟩, 0⟩
    else
      ⟨.direct run.1, ⟨run.2.1, st.breaker⟩, run.2.2⟩

end LiteLLMAdapter

/-! Concrete instances used to exercise the definitions on closed inputs. -/

/-- A breaker configuration matching the adapter's AI breaker shape, with no
fallback: threshold 3, reset window 1000 ms, success threshold 2. -/
def exBreakerCfg : CircuitBreakerConfig Unit :=
  { name := "ex", failureThreshold := 3, resetTimeout := 1000,
    successThreshold := 2, timeout := 5000, fallback := none }

/-- The example breaker configuration with a fallback value installed. -/
def exBreakerCfgFB : CircuitBreakerConfig Unit :=
  { name := "exFB", failureThreshold := 3, resetTimeout := 1000,
    successThreshold := 2, timeout := 5000, fallback := some () }

/-- The default retry policy of the source (`maxRetries` 3, initial delay
1000 ms, cap 10000 ms, multiplier 2, no predicate). -/
def exRetryCfg : RetryConfig Nat :=
  { maxRetries := 3, initialDelay := 1000, maxDelay := 10000,
    backoffMultiplier := 2, isRetryable := none }

/-- A retry policy whose predicate treats only even error codes as retryable. -/
def exRetryCfgPred : RetryConfig Nat :=
  { maxRetries := 3, initialDelay := 1000, maxDelay := 10000,
    backoffMultiplier := 2, isRetryable := some (fun e => decide (e % 2 = 0)) }

/-- A retry policy whose initial delay exceeds its delay cap. -/
def exRetryCfgHighInit : RetryConfig Nat :=
  { maxRetries := 2, initialDelay := 20, maxDelay := 10,
    backoffMultiplier := 2, isRetryable := none }

/-- An operation that fails on every attempt, with the attempt index as the
error value. -/
def exAlwaysFail : Nat → Except Nat Unit := fun i => .error i

/-- A gateway configuration with one fallback model, caching on (TTL 300 s),
breaker on. -/
def exGatewayCfg : LiteLLMConfig :=
  { primaryModel := "ollama/llama3.2", fallbackModels := ["openai/gpt-4o-mini"],
    cacheEnabled := true, cacheTTLSeconds := 300, circuitBreakerEnabled := true }

/-- A one-message chat request. -/
def exMessages : List Message := [{ role := "user", content := "hi" }]

/-- Provider behavior where the primary model answers and any fallback errs. -/
def exCallPrimaryOk : String → Except Nat String :=
  fun m => if m = "ollama/llama3.2" then .ok "hello" else .error 0

/-- Provider behavior where every model fails, with the model-name length as
the error value. -/
def exCallAllFail : String → Except Nat String := fun m => .error m.length

/-! Theorems. First, step lemmas describing one `execute` call in each state. -/

namespace CircuitBreaker

/-- A failing call on a breaker that is not OPEN and not HALF_OPEN (i.e.
CLOSED) increments the failure counters, stamps the failure time, and opens
the circuit exactly when the threshold is reached. -/
theorem execute_failure_closed {R Er : Type} (cfg : CircuitBreakerConfig R)
    (cb : CircuitBreaker) (t : Int) (e : Er) (h : cb.state = .CLOSED) :
    (execute cfg cb t (.error e)).1 =
      if cfg.failureThreshold ≤ cb.failures + 1 then
        { state := .OPEN, failures := cb.failures + 1, successes := 0,
          lastFailureTime := some t, totalCalls := cb.totalCalls + 1,
          totalFailures := cb.totalFailures + 1,
          totalSuccesses := cb.totalSuccesses }
      else
        { state := .CLOSED, failures := cb.failures + 1,
          successes := cb.successes, lastFailureTime := some t,
          totalCalls := cb.totalCalls + 1,
          totalFailures := cb.totalFailures + 1,
          totalSuccesses := cb.totalSuccesses } := by
  simp only [execute, runOperation, onFailure, openCircuit, h]
  split <;> simp_all

/-- A succeeding call on a CLOSED breaker clears the failure streak and
bumps the success total. -/
theorem execute_success_closed {R Er : Type} (cfg : CircuitBreakerConfig R)
    (cb : CircuitBreaker) (t : Int) (r : R) (h : cb.state = .CLOSED) :
    (execute cfg cb t (Except.ok r : Except Er R)).1 =
      { state := .CLOSED, failures := 0, successes := cb.successes,
        lastFailureTime := cb.lastFailureTime, totalCalls := cb.totalCalls + 1,
        totalFailures := cb.totalFailures,
        totalSuccesses := cb.totalSuccesses + 1 } := by
  simp only [execute, runOperation, onSuccess, h]
  simp_all

/-- A failing call on a HALF_OPEN breaker re-opens the circuit immediately
and stamps the failure time. -/
theorem execute_failure_half_open {R Er : Type} (cfg : CircuitBreakerConfig R)
    (cb : CircuitBreaker) (t : Int) (e : Er) (h : cb.state = .HALF_OPEN) :
    (execute cfg cb t (.error e)).1 =
      { state := .OPEN, failures := cb.failures + 1, successes := 0,
        lastFailureTime := some t, totalCalls := cb.totalCalls + 1,
        totalFailures := cb.totalFailures + 1,
        totalSuccesses := cb.totalSuccesses } := by
  simp only [execute, runOperation, onFailure, openCircuit, h]
  simp_all

/-- A succeeding call on a HALF_OPEN breaker extends the success streak and
closes the circuit exactly when the success threshold is reached. -/
theorem execute_success_half_open {R Er : Type} (cfg : CircuitBreakerConfig R)
    (cb : CircuitBreaker) (t : Int) (r : R) (h : cb.state = .HALF_OPEN) :
    (execute cfg cb t (Except.ok r : Except Er R)).1 =
      if cfg.successThreshold ≤ cb.successes + 1 then
        { state := .CLOSED, failures := 0, successes := 0,
          lastFailureTime := cb.lastFailureTime,
          totalCalls := cb.totalCalls + 1, totalFailures := cb.totalFailures,
          totalSuccesses := cb.totalSuccesses + 1 }
      else
        { state := .HALF_OPEN, failures := cb.failures,
          successes := cb.successes + 1, lastFailureTime := cb.lastFailureTime,
          totalCalls := cb.totalCalls + 1, totalFailures := cb.totalFailures,
          totalSuccesses := cb.totalSuccesses + 1 } := by
  simp only [execute, runOperation, onSuccess, close, h]
  split <;> simp_all

/-- An `execute` call on an OPEN breaker inside the reset window only bumps
`totalCalls` and yields the open-circuit handling, whatever the operation
would have done. -/
theorem execute_open_rejected {R Er : Type} (cfg : CircuitBreakerConfig R)
    (cb : CircuitBreaker) (now : Int) (op : Except Er R)
    (h : cb.state = .OPEN) (hno : shouldAttemptReset cfg cb now = false) :
    execute cfg cb now op =
      ({ cb with totalCalls := cb.totalCalls + 1 }, handleOpenCircuit cfg) := by
  have hbool : shouldAttemptReset cfg
      { state := .OPEN, failures := cb.failures, successes := cb.successes,
        lastFailureTime := cb.lastFailureTime, totalCalls := cb.totalCalls + 1,
        totalFailures := cb.totalFailures, totalSuccesses := cb.totalSuccesses }
      now = false := hno
  simp [execute, h, hbool]

/-- An `execute` call on an OPEN breaker once the reset window has elapsed is
handled exactly as the operation run on the breaker flipped to HALF_OPEN
(with `totalCalls` already bumped): the probe is let through. -/
theorem execute_open_probe {R Er : Type} (cfg : CircuitBreakerConfig R)
    (cb : CircuitBreaker) (now : Int) (op : Except Er R)
    (h : cb.state = .OPEN) (hyes : shouldAttemptReset cfg cb now = true) :
    execute cfg cb now op =
      runOperation cfg
        { cb with totalCalls := cb.totalCalls + 1, state := .HALF_OPEN }
        now op := by
  have hbool : shouldAttemptReset cfg
      { state := .OPEN, failures := cb.failures, successes := cb.successes,
        lastFailureTime := cb.lastFailureTime, totalCalls := cb.totalCalls + 1,
        totalFailures := cb.totalFailures, totalSuccesses := cb.totalSuccesses }
      now = true := hyes
  simp [execute, h, hbool]

/-- The open-circuit handling never invokes the operation: its result is the
fallback value or the circuit-open rejection. -/
theorem handleOpenCircuit_not_invoked {R Er : Type}
    (cfg : CircuitBreakerConfig R) :
    (handleOpenCircuit cfg : ExecResult Er R).invokedOp = false := by
  unfold handleOpenCircuit
  cases cfg.fallback <;> simp [ExecResult.invokedOp]

/-- `runOperation` always invokes the operation. -/
theorem runOperation_invoked {R Er : Type} (cfg : CircuitBreakerConfig R)
    (cb : CircuitBreaker) (now : Int) (op : Except Er R) :
    (runOperation cfg cb now op).2.invokedOp = true := by
  cases op <;> simp [runOperation, ExecResult.invokedOp]

/-- Running `failCalls` on a CLOSED breaker whose failure streak is exactly
the threshold away from tripping ends with the circuit OPEN and the failure
time stamped. -/
theorem failCalls_opens {R : Type} (cfg : CircuitBreakerConfig R) (t : Int) :
    ∀ (n : Nat) (cb : CircuitBreaker), cb.state = .CLOSED →
      cb.failures + n = cfg.failureThreshold → 1 ≤ n →
      (failCalls cfg t n cb).state = .OPEN ∧
      (failCalls cfg t n cb).lastFailureTime = some t ∧
      (failCalls cfg t n cb).failures = cfg.failureThreshold := by
  intro n
  induction n with
  | zero => intro cb _ _ hn; exact absurd hn (by omega)
  | succ n ih =>
    intro cb hst hsum _
    rw [show failCalls cfg t (n + 1) cb
        = failCalls cfg t n (execute cfg cb t (Except.error () : Except Unit R)).1 from rfl]
    rw [execute_failure_closed cfg cb t () hst]
    rcases Nat.eq_zero_or_pos n with hn | hn
    · subst hn
      rw [if_pos (by omega)]
      refine ⟨rfl, rfl, ?_⟩
      show cb.failures + 1 = cfg.failureThreshold
      omega
    · rw [if_neg (by omega)]
      exact ih _ rfl
        (by show cb.failures + 1 + n = cfg.failureThreshold; omega) hn

/-- Running `succCalls` on a HALF_OPEN breaker whose success streak is exactly
the threshold away from closing ends with the circuit CLOSED and both streak
counters zeroed. -/
theorem succCalls_closes {R : Type} (cfg : CircuitBreakerConfig R) (r : R)
    (t : Int) :
    ∀ (n : Nat) (cb : CircuitBreaker), cb.state = .HALF_OPEN →
      cb.successes + n = cfg.successThreshold → 1 ≤ n →
      (succCalls cfg r t n cb).state = .CLOSED ∧
      (succCalls cfg r t n cb).failures = 0 ∧
      (succCalls cfg r t n cb).successes = 0 := by
  intro n
  induction n with
  | zero => intro cb _ _ hn; exact absurd hn (by omega)
  | succ n ih =>
    intro cb hst hsum _
    rw [show succCalls cfg r t (n + 1) cb
        = succCalls cfg r t n (execute cfg cb t (Except.ok r : Except Unit R)).1 from rfl]
    rw [execute_success_half_open cfg cb t r hst]
    rcases Nat.eq_zero_or_pos n with hn | hn
    · subst hn
      rw [if_pos (by omega)]
      exact ⟨rfl, rfl, rfl⟩
    · rw [if_neg (by omega)]
      exact ih _ rfl
        (by show cb.successes + 1 + n = cfg.successThreshold; omega) hn

/-- C1: on a CLOSED breaker with a clean failure streak,
`failureThreshold`-many consecutive failed `execute` calls leave the breaker
OPEN, and the next call made before `resetTimeout` has elapsed since the
recorded failure time yields the open-circuit handling (fallback value or
circuit-open rejection) without invoking the underlying operation, the
breaker staying OPEN. -/
theorem closed_breaker_trips_after_threshold_failures {R Er : Type}
    (cfg : CircuitBreakerConfig R) (cb : CircuitBreaker) (t now : Int)
    (op : Except Er R) (hst : cb.state = .CLOSED) (hf : cb.failures = 0)
    (hthr : 1 ≤ cfg.failureThreshold) (hwin : now - t < cfg.resetTimeout) :
    (failCalls cfg t cfg.failureThreshold cb).state = .OPEN ∧
    (execute cfg (failCalls cfg t cfg.failureThreshold cb) now op).2
      = handleOpenCircuit cfg ∧
    (execute cfg (failCalls cfg t cfg.failureThreshold cb) now op).2.invokedOp
      = false ∧
    (execute cfg (failCalls cfg t cfg.failureThreshold cb) now op).1.state
      = .OPEN := by
  obtain ⟨h1, h2, -⟩ :=
    failCalls_opens cfg t cfg.failureThreshold cb hst (by omega) hthr
  have hno : shouldAttemptReset cfg (failCalls cfg t cfg.failureThreshold cb)
      now = false := by
    simp [shouldAttemptReset, h2]
    omega
  rw [execute_open_rejected cfg _ now op h1 hno]
  exact ⟨h1, rfl, handleOpenCircuit_not_invoked cfg, h1⟩

/-- Witness for C1 at the example configuration: threshold 3, three failures
at time 0, next call at time 500 inside the 1000 ms reset window. -/
theorem closed_breaker_trips_witness :
    (failCalls exBreakerCfg 0 exBreakerCfg.failureThreshold init).state
      = .OPEN ∧
    (execute exBreakerCfg
        (failCalls exBreakerCfg 0 exBreakerCfg.failureThreshold init) 500
        (Except.ok () : Except Unit Unit)).2 = handleOpenCircuit exBreakerCfg ∧
    (execute exBreakerCfg
        (failCalls exBreakerCfg 0 exBreakerCfg.failureThreshold init) 500
        (Except.ok () : Except Unit Unit)).2.invokedOp = false ∧
    (execute exBreakerCfg
        (failCalls exBreakerCfg 0 exBreakerCfg.failureThreshold init) 500
        (Except.ok () : Except Unit Unit)).1.state = .OPEN :=
  closed_breaker_trips_after_threshold_failures exBreakerCfg init 0 500
    (Except.ok () : Except Unit Unit) rfl rfl (by decide) (by decide)

/-- C4: an OPEN breaker with failure time `t` rejects a call at `now` inside
the reset window via the open-circuit handling, without invoking the
operation and staying OPEN; once the window has elapsed the call equals the
operation run on the breaker flipped to HALF_OPEN (the probe is invoked). -/
theorem open_breaker_rejects_then_probes {R Er : Type}
    (cfg : CircuitBreakerConfig R) (cb : CircuitBreaker) (t now : Int)
    (op : Except Er R) (hst : cb.state = .OPEN)
    (hlt : cb.lastFailureTime = some t) :
    (now - t < cfg.resetTimeout →
      execute cfg cb now op
        = ({ cb with totalCalls := cb.totalCalls + 1 }, handleOpenCircuit cfg) ∧
      (execute cfg cb now op).2.invokedOp = false ∧
      (execute cfg cb now op).1.state = .OPEN) ∧
    (cfg.resetTimeout ≤ now - t →
      execute cfg cb now op
        = runOperation cfg
            { cb with totalCalls := cb.totalCalls + 1, state := .HALF_OPEN }
            now op ∧
      (execute cfg cb now op).2.invokedOp = true) := by
  constructor
  · intro hwin
    have hno : shouldAttemptReset cfg cb now = false := by
      simp [shouldAttemptReset, hlt]
      omega
    rw [execute_open_rejected cfg cb now op hst hno]
    exact ⟨rfl, handleOpenCircuit_not_invoked cfg, hst⟩
  · intro helapsed
    have hyes : shouldAttemptReset cfg cb now = true := by
      simp [shouldAttemptReset, hlt]
      omega
    rw [execute_open_probe cfg cb now op hst hyes]
    exact ⟨rfl, runOperation_invoked cfg _ now op⟩

/-- Witness for C4 on the breaker obtained by tripping the example breaker at
time 0, once with a call at 500 (inside the window) and once at 1500 (after
the 1000 ms window). -/
theorem open_breaker_rejects_then_probes_witness :
    ((500 : Int) - 0 < exBreakerCfg.resetTimeout →
      execute exBreakerCfg (failCalls exBreakerCfg 0 3 init) 500
          (Except.ok () : Except Unit Unit)
        = ({ failCalls exBreakerCfg 0 3 init with
              totalCalls := (failCalls exBreakerCfg 0 3 init).totalCalls + 1 },
           handleOpenCircuit exBreakerCfg) ∧
      (execute exBreakerCfg (failCalls exBreakerCfg 0 3 init) 500
          (Except.ok () : Except Unit Unit)).2.invokedOp = false ∧
      (execute exBreakerCfg (failCalls exBreakerCfg 0 3 init) 500
          (Except.ok () : Except Unit Unit)).1.state = .OPEN) ∧
    (exBreakerCfg.resetTimeout ≤ (1500 : Int) - 0 →
      execute exBreakerCfg (failCalls exBreakerCfg 0 3 init) 1500
          (Except.ok () : Except Unit Unit)
        = runOperation exBreakerCfg
            { failCalls exBreakerCfg 0 3 init with
              totalCalls := (failCalls exBreakerCfg 0 3 init).totalCalls + 1,
              state := .HALF_OPEN } 1500 (Except.ok () : Except Unit Unit) ∧
      (execute exBreakerCfg (failCalls exBreakerCfg 0 3 init) 1500
          (Except.ok () : Except Unit Unit)).2.invokedOp = true) :=
  ⟨(open_breaker_rejects_then_probes exBreakerCfg
      (failCalls exBreakerCfg 0 3 init) 0 500 (Except.ok () : Except Unit Unit)
      (by decide) (by decide)).1,
   (open_breaker_rejects_then_probes exBreakerCfg
      (failCalls exBreakerCfg 0 3 init) 0 1500 (Except.ok () : Except Unit Unit)
      (by decide) (by decide)).2⟩

/-- C5: on a HALF_OPEN breaker, a single failed call (whatever the prior
streaks) moves the state straight to OPEN and refreshes the failure
timestamp; and on a HALF_OPEN breaker with a clean success streak,
`successThreshold`-many consecutive successful calls move it to CLOSED with
both streak counters zeroed. -/
theorem half_open_single_failure_reopens_and_streak_closes {R Er : Type}
    (cfg : CircuitBreakerConfig R) (cb cb2 : CircuitBreaker) (now t : Int)
    (e : Er) (r : R) (hst : cb.state = .HALF_OPEN)
    (hst2 : cb2.state = .HALF_OPEN) (hs2 : cb2.successes = 0)
    (hthr : 1 ≤ cfg.successThreshold) :
    ((execute cfg cb now (.error e)).1.state = .OPEN ∧
     (execute cfg cb now (.error e)).1.lastFailureTime = some now) ∧
    ((succCalls cfg r t cfg.successThreshold cb2).state = .CLOSED ∧
     (succCalls cfg r t cfg.successThreshold cb2).failures = 0 ∧
     (succCalls cfg r t cfg.successThreshold cb2).successes = 0) := by
  constructor
  · rw [execute_failure_half_open cfg cb now e hst]
    exact ⟨rfl, rfl⟩
  · exact succCalls_closes cfg r t cfg.successThreshold cb2 hst2 (by omega) hthr

/-- Witness for C5: a half-open example breaker that already has a success
banked still re-opens on one failure at time 7; a freshly half-open one
closes after 2 successes. -/
theorem half_open_single_failure_reopens_witness :
    ((execute exBreakerCfg
        { init with state := .HALF_OPEN, successes := 1 } 7
        (Except.error ())).1.state = .OPEN ∧
     (execute exBreakerCfg
        { init with state := .HALF_OPEN, successes := 1 } 7
        (Except.error ())).1.lastFailureTime = some 7) ∧
    ((succCalls exBreakerCfg () 9 exBreakerCfg.successThreshold
        { init with state := .HALF_OPEN }).state = .CLOSED ∧
     (succCalls exBreakerCfg () 9 exBreakerCfg.successThreshold
        { init with state := .HALF_OPEN }).failures = 0 ∧
     (succCalls exBreakerCfg () 9 exBreakerCfg.successThreshold
        { init with state := .HALF_OPEN }).successes = 0) :=
  half_open_single_failure_reopens_and_streak_closes exBreakerCfg
    { init with state := .HALF_OPEN, successes := 1 }
    { init with state := .HALF_OPEN } 7 9 () () rfl rfl rfl (by decide)

/-- Invoking the operation through `runOperation` leaves `totalCalls` alone
and adds exactly one to the sum of the failure and success totals, never
decreasing either. -/
theorem onFailure_fields {R : Type} (cfg : CircuitBreakerConfig R)
    (cb : CircuitBreaker) (now : Int) :
    (onFailure cfg cb now).totalCalls = cb.totalCalls ∧
    (onFailure cfg cb now).totalFailures = cb.totalFailures + 1 ∧
    (onFailure cfg cb now).totalSuccesses = cb.totalSuccesses := by
  simp only [onFailure, openCircuit]
  split
  · exact ⟨rfl, rfl, rfl⟩
  · split
    · exact ⟨rfl, rfl, rfl⟩
    · exact ⟨rfl, rfl, rfl⟩

theorem onSuccess_fields {R : Type} (cfg : CircuitBreakerConfig R)
    (cb : CircuitBreaker) :
    (onSuccess cfg cb).totalCalls = cb.totalCalls ∧
    (onSuccess cfg cb).totalFailures = cb.totalFailures ∧
    (onSuccess cfg cb).totalSuccesses = cb.totalSuccesses + 1 := by
  simp only [onSuccess, close]
  split
  · split
    · exact ⟨rfl, rfl, rfl⟩
    · exact ⟨rfl, rfl, rfl⟩
  · exact ⟨rfl, rfl, rfl⟩

theorem runOperation_totals {R Er : Type} (cfg : CircuitBreakerConfig R)
    (cb : CircuitBreaker) (now : Int) (op : Except Er R) :
    (runOperation cfg cb now op).1.totalCalls = cb.totalCalls ∧
    cb.totalFailures ≤ (runOperation cfg cb now op).1.totalFailures ∧
    cb.totalSuccesses ≤ (runOperation cfg cb now op).1.totalSuccesses ∧
    (runOperation cfg cb now op).1.totalFailures
        + (runOperation cfg cb now op).1.totalSuccesses
      = cb.totalFailures + cb.totalSuccesses + 1 := by
  rcases op with e | r
  · simp only [runOperation]
    obtain ⟨f1, f2, f3⟩ := onFailure_fields cfg cb now
    exact ⟨f1, by omega, by omega, by omega⟩
  · simp only [runOperation]
    obtain ⟨f1, f2, f3⟩ := onSuccess_fields cfg cb
    exact ⟨f1, by omega, by omega, by omega⟩

/-- `execute` adds exactly one to `totalCalls`, never decreases the failure
and success totals, and adds at most one to their sum. -/
theorem execute_totals {R Er : Type} (cfg : CircuitBreakerConfig R)
    (cb : CircuitBreaker) (now : Int) (op : Except Er R) :
    (execute cfg cb now op).1.totalCalls = cb.totalCalls + 1 ∧
    cb.totalFailures ≤ (execute cfg cb now op).1.totalFailures ∧
    cb.totalSuccesses ≤ (execute cfg cb now op).1.totalSuccesses ∧
    (execute cfg cb now op).1.totalFailures
        + (execute cfg cb now op).1.totalSuccesses
      ≤ cb.totalFailures + cb.totalSuccesses + 1 := by
  simp only [execute]
  split
  · split
    · obtain ⟨h1, h2, h3, h4⟩ := runOperation_totals cfg
        { cb with totalCalls := cb.totalCalls + 1, state := .HALF_OPEN } now op
      simp only at h1 h2 h3 h4
      refine ⟨by omega, by omega, by omega, by omega⟩
    · simp
  · obtain ⟨h1, h2, h3, h4⟩ := runOperation_totals cfg
      { cb with totalCalls := cb.totalCalls + 1 } now op
    simp only at h1 h2 h3 h4
    refine ⟨by omega, by omega, by omega, by omega⟩

/-- C8 (amended): on the CLOSED→OPEN and HALF_OPEN→OPEN transitions the
source's `open()` resets only `consecutiveSuccesses` and leaves
`consecutiveFailures` untouched; the OPEN→HALF_OPEN transition changes
neither streak counter (the probe call then runs on the flipped breaker);
only `close()` (HALF_OPEN→CLOSED) resets both counters. -/
theorem transition_counter_resets {R Er : Type} (cfg : CircuitBreakerConfig R)
    (cb : CircuitBreaker) (now : Int) (op : Except Er R) :
    ((openCircuit cb).state = .OPEN ∧ (openCircuit cb).successes = 0 ∧
     (openCircuit cb).failures = cb.failures) ∧
    ((close cb).state = .CLOSED ∧ (close cb).failures = 0 ∧
     (close cb).successes = 0) ∧
    (cb.state = .OPEN → shouldAttemptReset cfg cb now = true →
      execute cfg cb now op
        = runOperation cfg
            { cb with totalCalls := cb.totalCalls + 1, state := .HALF_OPEN }
            now op) :=
  ⟨⟨rfl, rfl, rfl⟩, ⟨rfl, rfl, rfl⟩,
   fun h1 h2 => execute_open_probe cfg cb now op h1 h2⟩

/-- Witness for the amended C8, with the OPEN→HALF_OPEN leg discharged on a
tripped example breaker probed after the reset window. -/
theorem transition_counter_resets_witness :
    ((openCircuit (failCalls exBreakerCfg 0 2 init)).state = .OPEN ∧
     (openCircuit (failCalls exBreakerCfg 0 2 init)).successes = 0 ∧
     (openCircuit (failCalls exBreakerCfg 0 2 init)).failures
       = (failCalls exBreakerCfg 0 2 init).failures) ∧
    ((close (failCalls exBreakerCfg 0 2 init)).state = .CLOSED ∧
     (close (failCalls exBreakerCfg 0 2 init)).failures = 0 ∧
     (close (failCalls exBreakerCfg 0 2 init)).successes = 0) ∧
    (execute exBreakerCfg (failCalls exBreakerCfg 0 3 init) 1500
        (Except.ok () : Except Unit Unit)
      = runOperation exBreakerCfg
          { failCalls exBreakerCfg 0 3 init with
            totalCalls := (failCalls exBreakerCfg 0 3 init).totalCalls + 1,
            state := .HALF_OPEN } 1500 (Except.ok () : Except Unit Unit)) :=
  ⟨(transition_counter_resets exBreakerCfg (failCalls exBreakerCfg 0 2 init) 0
      (Except.ok () : Except Unit Unit)).1,
   (transition_counter_resets exBreakerCfg (failCalls exBreakerCfg 0 2 init) 0
      (Except.ok () : Except Unit Unit)).2.1,
   (transition_counter_resets exBreakerCfg (failCalls exBreakerCfg 0 3 init)
      1500 (Except.ok () : Except Unit Unit)).2.2 (by decide) (by decide)⟩

/-- Counterexample to C8 as stated: tripping the example breaker (threshold 3)
with three failures at time 0 is a CLOSED→OPEN transition, yet afterwards the
consecutive-failures counter still holds 3 — it was not reset. -/
theorem trip_keeps_failures_counterexample :
    init.state = .CLOSED ∧
    (failCalls exBreakerCfg 0 3 init).state = .OPEN ∧
    (failCalls exBreakerCfg 0 3 init).failures = 3 ∧
    (failCalls exBreakerCfg 0 3 init).failures ≠ 0 := by
  decide

/-- C9 (amended): over any sequence of `execute` and `reset` operations the
lifetime totals `totalCalls`, `totalFailures`, `totalSuccesses` are
non-decreasing; manual `reset()` forces CLOSED and zeroes the streak counters
and the failure timestamp while leaving all three lifetime totals exactly as
they were (they are never reset). -/
theorem lifetime_totals_monotone_and_reset_zeroes {R : Type}
    (cfg : CircuitBreakerConfig R) (ops : List (BreakerOp R))
    (cb : CircuitBreaker) :
    (cb.totalCalls ≤ (applyOps cfg ops cb).totalCalls ∧
     cb.totalFailures ≤ (applyOps cfg ops cb).totalFailures ∧
     cb.totalSuccesses ≤ (applyOps cfg ops cb).totalSuccesses) ∧
    ((reset cb).totalCalls = cb.totalCalls ∧
     (reset cb).totalFailures = cb.totalFailures ∧
     (reset cb).totalSuccesses = cb.totalSuccesses ∧
     (reset cb).state = .CLOSED ∧ (reset cb).failures = 0 ∧
     (reset cb).successes = 0 ∧ (reset cb).lastFailureTime = none) := by
  refine ⟨?_, rfl, rfl, rfl, rfl, rfl, rfl, rfl⟩
  induction ops generalizing cb with
  | nil => exact ⟨le_rfl, le_rfl, le_rfl⟩
  | cons o os ih =>
    have hstep : cb.totalCalls ≤ (applyOp cfg o cb).totalCalls ∧
        cb.totalFailures ≤ (applyOp cfg o cb).totalFailures ∧
        cb.totalSuccesses ≤ (applyOp cfg o cb).totalSuccesses := by
      cases o with
      | exec now op =>
        obtain ⟨h1, h2, h3, -⟩ := execute_totals cfg cb now op
        exact ⟨by simp [applyOp]; omega, h2, h3⟩
      | reset => exact ⟨le_rfl, le_rfl, le_rfl⟩
    obtain ⟨i1, i2, i3⟩ := ih (applyOp cfg o cb)
    exact ⟨hstep.1.trans i1, hstep.2.1.trans i2, hstep.2.2.trans i3⟩

/-- Counterexample to C9 as stated: after one failing call, a manual `reset()`
leaves `totalCalls` (and `totalFailures`) at 1, not 0 — `reset()` does not
zero the lifetime counters. -/
theorem manual_reset_keeps_totals_counterexample :
    (reset (execute exBreakerCfg init 0
        (Except.error () : Except Unit Unit)).1).totalCalls = 1 ∧
    (reset (execute exBreakerCfg init 0
        (Except.error () : Except Unit Unit)).1).totalFailures = 1 ∧
    (reset (execute exBreakerCfg init 0
        (Except.error () : Except Unit Unit)).1).totalCalls ≠ 0 := by
  decide

/-- C10: a call rejected while OPEN (inside the reset window) changes the
breaker only by `totalCalls := totalCalls + 1` — state, streak counters,
failure timestamp and both outcome totals are untouched, and the result is
the open-circuit handling (fallback or rejection), not a success; moreover
every `execute` call preserves `totalFailures + totalSuccesses ≤ totalCalls`. -/
theorem open_rejection_frame_and_totals_invariant {R Er : Type}
    (cfg : CircuitBreakerConfig R) (cb : CircuitBreaker) (now : Int)
    (op : Except Er R) :
    (cb.state = .OPEN → shouldAttemptReset cfg cb now = false →
      (execute cfg cb now op).1 = { cb with totalCalls := cb.totalCalls + 1 } ∧
      (execute cfg cb now op).2 = handleOpenCircuit cfg ∧
      (execute cfg cb now op).2.invokedOp = false) ∧
    (cb.totalFailures + cb.totalSuccesses ≤ cb.totalCalls →
      (execute cfg cb now op).1.totalFailures
          + (execute cfg cb now op).1.totalSuccesses
        ≤ (execute cfg cb now op).1.totalCalls) := by
  constructor
  · intro h1 h2
    rw [execute_open_rejected cfg cb now op h1 h2]
    exact ⟨rfl, rfl, handleOpenCircuit_not_invoked cfg⟩
  · intro hinv
    obtain ⟨h1, h2, h3, h4⟩ := execute_totals cfg cb now op
    omega

/-- Witness for C10 on a tripped breaker with a fallback configured, rejected
at time 500 inside the 1000 ms window: the result is the fallback value, the
breaker only gains one `totalCalls`, and the totals inequality carries over. -/
theorem open_rejection_frame_witness :
    ((execute exBreakerCfgFB (failCalls exBreakerCfgFB 0 3 init) 500
        (Except.ok () : Except Unit Unit)).1
      = { failCalls exBreakerCfgFB 0 3 init with
          totalCalls := (failCalls exBreakerCfgFB 0 3 init).totalCalls + 1 } ∧
     (execute exBreakerCfgFB (failCalls exBreakerCfgFB 0 3 init) 500
        (Except.ok () : Except Unit Unit)).2
      = handleOpenCircuit exBreakerCfgFB ∧
     (execute exBreakerCfgFB (failCalls exBreakerCfgFB 0 3 init) 500
        (Except.ok () : Except Unit Unit)).2.invokedOp = false) ∧
    ((execute exBreakerCfgFB (failCalls exBreakerCfgFB 0 3 init) 500
        (Except.ok () : Except Unit Unit)).1.totalFailures
        + (execute exBreakerCfgFB (failCalls exBreakerCfgFB 0 3 init) 500
            (Except.ok () : Except Unit Unit)).1.totalSuccesses
      ≤ (execute exBreakerCfgFB (failCalls exBreakerCfgFB 0 3 init) 500
          (Except.ok () : Except Unit Unit)).1.totalCalls) :=
  ⟨(open_rejection_frame_and_totals_invariant exBreakerCfgFB
      (failCalls exBreakerCfgFB 0 3 init) 500
      (Except.ok () : Except Unit Unit)).1 (by decide) (by decide),
   (open_rejection_frame_and_totals_invariant exBreakerCfgFB
      (failCalls exBreakerCfgFB 0 3 init) 500
      (Except.ok () : Except Unit Unit)).2 (by decide)⟩

end CircuitBreaker

/-! Theorems about the retry executor. -/

/-- The retry loop never invokes the operation more than once per allowed
attempt: at most `remaining + 1` invocations. -/
theorem retryGo_invocations_le {E A : Type} (fn : Nat → Except E A)
    (cfg : RetryConfig E) :
    ∀ (r attempt : Nat) (delay : ℚ),
      (retryGo fn cfg attempt delay r).2.1 ≤ r + 1 := by
  intro r
  induction r with
  | zero =>
    intro attempt delay
    rcases hfn : fn attempt with e | a <;> simp [retryGo, hfn]
  | succ n ih =>
    intro attempt delay
    rcases hfn : fn attempt with e | a
    · rcases hr : cfg.isRetryable with - | p
      · have := ih (attempt + 1) (min (delay * cfg.backoffMultiplier) cfg.maxDelay)
        simp [retryGo, hfn, hr]
        omega
      · by_cases hpe : p e = true
        · have := ih (attempt + 1) (min (delay * cfg.backoffMultiplier) cfg.maxDelay)
          simp [retryGo, hfn, hr, hpe]
          omega
        · simp [retryGo, hfn, hr, hpe]
    · simp [retryGo, hfn]

/-- When the operation fails on every attempt and no retryability predicate
is configured, the loop performs `remaining + 1` invocations and ends with
the error of the last attempt. -/
theorem retryGo_always_fails {E A : Type} (errs : Nat → E)
    (cfg : RetryConfig E) (hr : cfg.isRetryable = none) :
    ∀ (r attempt : Nat) (delay : ℚ),
      (retryGo (fun i => (.error (errs i) : Except E A)) cfg attempt delay r).1
        = .error (errs (attempt + r)) ∧
      (retryGo (fun i => (.error (errs i) : Except E A)) cfg attempt delay r).2.1
        = r + 1 := by
  intro r
  induction r with
  | zero =>
    intro attempt delay
    simp [retryGo]
  | succ n ih =>
    intro attempt delay
    obtain ⟨h1, h2⟩ := ih (attempt + 1)
      (min (delay * cfg.backoffMultiplier) cfg.maxDelay)
    have hidx : attempt + 1 + n = attempt + (n + 1) := by omega
    simp [retryGo, hr, h1, h2, hidx]

/-- C6: in every run `withRetry` invokes the operation at most
`maxRetries + 1` times; with no retryability predicate and an operation that
fails on every attempt it invokes it exactly `maxRetries + 1` times and
raises the last attempt's error; and with a predicate that rejects the first
thrown error it invokes the operation exactly once and propagates that
error. -/
theorem withRetry_attempt_counts {E A : Type} (fn : Nat → Except E A)
    (cfg : RetryConfig E) (errs : Nat → E) (p : E → Bool) (e0 : E) :
    ((withRetry fn cfg).2.1 ≤ cfg.maxRetries + 1) ∧
    (cfg.isRetryable = none →
      (withRetry (fun i => (.error (errs i) : Except E A)) cfg).2.1
        = cfg.maxRetries + 1 ∧
      (withRetry (fun i => (.error (errs i) : Except E A)) cfg).1
        = .error (errs cfg.maxRetries)) ∧
    (cfg.isRetryable = some p → fn 0 = .error e0 → p e0 = false →
      (withRetry fn cfg).2.1 = 1 ∧ (withRetry fn cfg).1 = .error e0) := by
  refine ⟨retryGo_invocations_le fn cfg cfg.maxRetries 0 cfg.initialDelay,
    ?_, ?_⟩
  · intro hr
    obtain ⟨h1, h2⟩ := retryGo_always_fails (A := A) errs cfg hr
      cfg.maxRetries 0 cfg.initialDelay
    refine ⟨h2, ?_⟩
    exact h1.trans (congrArg (fun j => Except.error (errs j)) (by omega))
  · intro hp h0 hnp
    unfold withRetry
    rcases hm : cfg.maxRetries with - | n <;> simp [retryGo, h0, hp, hnp]

/-- Witness for C6: with the default policy (maxRetries 3, no predicate) an
always-failing operation runs 4 times and raises the error of attempt 3;
with the even-only predicate and first error 1 the operation runs once. -/
theorem withRetry_attempt_counts_witness :
    ((withRetry exAlwaysFail exRetryCfg).2.1 ≤ exRetryCfg.maxRetries + 1) ∧
    ((withRetry exAlwaysFail exRetryCfg).2.1 = exRetryCfg.maxRetries + 1 ∧
     (withRetry exAlwaysFail exRetryCfg).1
        = .error (exRetryCfg.maxRetries)) ∧
    ((withRetry (fun _ => (.error 1 : Except Nat Unit)) exRetryCfgPred).2.1
        = 1 ∧
     (withRetry (fun _ => (.error 1 : Except Nat Unit)) exRetryCfgPred).1
        = .error 1) :=
  ⟨(withRetry_attempt_counts exAlwaysFail exRetryCfg (fun i => i)
      (fun e => decide (e % 2 = 0)) 1).1,
   (withRetry_attempt_counts exAlwaysFail exRetryCfg (fun i => i)
      (fun e => decide (e % 2 = 0)) 1).2.1 rfl,
   (withRetry_attempt_counts (fun _ => (.error 1 : Except Nat Unit))
      exRetryCfgPred (fun i => i) (fun e => decide (e % 2 = 0)) 1).2.2
      rfl rfl (by decide)⟩

/-- Every sleep the retry loop performs, when started at delay `delaySeq k`,
is the corresponding entry of the `delaySeq` sequence shifted by `k`. -/
theorem retryGo_sleeps {E A : Type} (fn : Nat → Except E A)
    (cfg : RetryConfig E) :
    ∀ (r attempt k i : Nat),
      i < (retryGo fn cfg attempt (delaySeq cfg k) r).2.2.length →
      (retryGo fn cfg attempt (delaySeq cfg k) r).2.2.get? i
        = some (delaySeq cfg (k + i)) := by
  intro r
  induction r with
  | zero =>
    intro attempt k i h
    rcases hfn : fn attempt with e | a <;> simp [retryGo, hfn] at h
  | succ n ih =>
    intro attempt k i h
    have hmin : min (delaySeq cfg k * cfg.backoffMultiplier) cfg.maxDelay
        = delaySeq cfg (k + 1) := rfl
    rcases hfn : fn attempt with e | a
    · rcases hr : cfg.isRetryable with - | p
      · simp only [retryGo, hfn, hr, hmin] at h ⊢
        rcases i with - | j
        · simp
        · have hlen : j < (retryGo fn cfg (attempt + 1) (delaySeq cfg (k + 1)) n).2.2.length := by
            simp at h
            omega
          have hrec := ih (attempt + 1) (k + 1) j hlen
          simp only [List.get?_cons_succ]
          exact hrec.trans (congrArg (fun j => some (delaySeq cfg j)) (by omega))
      · by_cases hpe : p e = true
        · simp only [retryGo, hfn, hr, hpe, if_true, hmin] at h ⊢
          rcases i with - | j
          · simp
          · have hlen : j < (retryGo fn cfg (attempt + 1) (delaySeq cfg (k + 1)) n).2.2.length := by
              simp at h
              omega
            have hrec := ih (attempt + 1) (k + 1) j hlen
            simp only [List.get?_cons_succ]
            exact hrec.trans (congrArg (fun j => some (delaySeq cfg j)) (by omega))
        · simp [retryGo, hfn, hr, hpe] at h
    · simp [retryGo, hfn] at h

/-- The delay sequence never exceeds the cap once the initial delay respects
it. -/
theorem delaySeq_le_maxDelay {E : Type} (cfg : RetryConfig E)
    (h : cfg.initialDelay ≤ cfg.maxDelay) :
    ∀ i, delaySeq cfg i ≤ cfg.maxDelay
  | 0 => h
  | _ + 1 => min_le_right _ _

/-- The delay sequence stays nonnegative when the initial delay is and the
multiplier is at least 1. -/
theorem delaySeq_nonneg {E : Type} (cfg : RetryConfig E)
    (hm : 1 ≤ cfg.backoffMultiplier) (h0 : 0 ≤ cfg.initialDelay)
    (hle : cfg.initialDelay ≤ cfg.maxDelay) :
    ∀ i, 0 ≤ delaySeq cfg i
  | 0 => h0
  | i + 1 => le_min
      (mul_nonneg (delaySeq_nonneg cfg hm h0 hle i) (le_trans zero_le_one hm))
      (le_trans h0 hle)

/-- C7 (amended): the sleep durations of every `withRetry` run follow
`delay_0 = initialDelay`, `delay_(i+1) = min(delay_i * backoffMultiplier,
maxDelay)`; whenever `initialDelay ≤ maxDelay` every delay is bounded by
`maxDelay`; and for `backoffMultiplier ≥ 1` the sequence is non-decreasing
provided additionally `0 ≤ initialDelay ≤ maxDelay` (without that proviso
the unclamped first delay can exceed the second — see the counterexample). -/
theorem backoff_delay_recurrence {E A : Type} (fn : Nat → Except E A)
    (cfg : RetryConfig E) :
    delaySeq cfg 0 = cfg.initialDelay ∧
    (∀ i, delaySeq cfg (i + 1)
        = min (delaySeq cfg i * cfg.backoffMultiplier) cfg.maxDelay) ∧
    (∀ i : Nat, i < (withRetry fn cfg).2.2.length →
      (withRetry fn cfg).2.2.get? i = some (delaySeq cfg i)) ∧
    (cfg.initialDelay ≤ cfg.maxDelay → ∀ i, delaySeq cfg i ≤ cfg.maxDelay) ∧
    (1 ≤ cfg.backoffMultiplier → 0 ≤ cfg.initialDelay →
      cfg.initialDelay ≤ cfg.maxDelay →
      ∀ i, delaySeq cfg i ≤ delaySeq cfg (i + 1)) := by
  refine ⟨rfl, fun i => rfl, ?_, delaySeq_le_maxDelay cfg, ?_⟩
  · intro i h
    have := retryGo_sleeps fn cfg cfg.maxRetries 0 0 i h
    exact this.trans (congrArg (fun j => some (delaySeq cfg j)) (by omega))
  · intro hm h0 hle i
    refine le_min ?_ (delaySeq_le_maxDelay cfg hle i)
    exact le_mul_of_one_le_right (delaySeq_nonneg cfg hm h0 hle i) hm

/-- Witness for C7 on the default policy with an always-failing operation:
the first recorded sleep is `initialDelay`, the cap and monotonicity hold at
indices 5 and 0. -/
theorem backoff_delay_recurrence_witness :
    delaySeq exRetryCfg 0 = exRetryCfg.initialDelay ∧
    delaySeq exRetryCfg 1
      = min (delaySeq exRetryCfg 0 * exRetryCfg.backoffMultiplier)
          exRetryCfg.maxDelay ∧
    (withRetry exAlwaysFail exRetryCfg).2.2.get? 0
      = some (delaySeq exRetryCfg 0) ∧
    delaySeq exRetryCfg 5 ≤ exRetryCfg.maxDelay ∧
    delaySeq exRetryCfg 0 ≤ delaySeq exRetryCfg 1 :=
  ⟨(backoff_delay_recurrence exAlwaysFail exRetryCfg).1,
   (backoff_delay_recurrence exAlwaysFail exRetryCfg).2.1 0,
   (backoff_delay_recurrence exAlwaysFail exRetryCfg).2.2.1 0 (by decide),
   (backoff_delay_recurrence exAlwaysFail exRetryCfg).2.2.2.1 (by decide) 5,
   (backoff_delay_recurrence exAlwaysFail exRetryCfg).2.2.2.2 (by decide)
     (by decide) (by decide) 0⟩

/-- Counterexample to C7 as stated: with multiplier 2 ≥ 1 but
`initialDelay = 20 > 10 = maxDelay`, a run of `withRetry` sleeps 20 ms then
10 ms — the sleep sequence is not non-decreasing. -/
theorem backoff_not_monotone_counterexample :
    (1 : ℚ) ≤ exRetryCfgHighInit.backoffMultiplier ∧
    (withRetry exAlwaysFail exRetryCfgHighInit).2.2 = [20, 10] ∧
    ¬ ((20 : ℚ) ≤ 10) := by
  refine ⟨by norm_num [exRetryCfgHighInit], ?_, by norm_num⟩
  have h1 : (withRetry exAlwaysFail exRetryCfgHighInit).2.2
      = [(20 : ℚ), min ((20 : ℚ) * 2) 10] := rfl
  rw [h1]
  norm_num

/-! Theorems about the LiteLLM provider gateway. -/

namespace LiteLLMAdapter

/-- If every model in a prefix fails and the next model answers, the fallback
loop returns that answer, writes it to cache (when caching is on) and has
called exactly the prefix plus the succeeding model. -/
theorem tryModels_first_success {Er : Type} (cacheEnabled : Bool)
    (call : String → Except Er String) (now : Int) (k : List Message)
    (v : String) :
    ∀ (ms1 : List String) (m : String) (rest : List String)
      (lastE : Option Er) (c : Cache),
      (∀ x ∈ ms1, ∃ e, call x = .error e) → call m = .ok v →
      tryModels cacheEnabled call now k (ms1 ++ m :: rest) lastE c
        = (.ok v, (if cacheEnabled then setCache c now k v else c),
           ms1.length + 1) := by
  intro ms1
  induction ms1 with
  | nil =>
    intro m rest lastE c _ hm
    simp [tryModels, hm]
  | cons x ms1 ih =>
    intro m rest lastE c hfail hm
    obtain ⟨e, he⟩ := hfail x (List.mem_cons_self x ms1)
    have hrec := ih m rest (some e) c
      (fun y hy => hfail y (List.mem_cons_of_mem x hy)) hm
    simp [tryModels, he, hrec]

/-- If every model errs, the fallback loop raises the error of the last model
of a nonempty chain and leaves the cache untouched. -/
theorem tryModels_all_fail {Er : Type} (cacheEnabled : Bool)
    (errFn : String → Er) (now : Int) (k : List Message) :
    ∀ (ms1 : List String) (mlast : String) (lastE : Option Er) (c : Cache),
      tryModels cacheEnabled (fun m => .error (errFn m)) now k
          (ms1 ++ [mlast]) lastE c
        = (.error (.providerError (errFn mlast)), c, ms1.length + 1) := by
  intro ms1
  induction ms1 with
  | nil =>
    intro mlast lastE c
    simp [tryModels]
  | cons x ms1 ih =>
    intro mlast lastE c
    simp [tryModels, ih mlast (some (errFn x)) c]

/-- C2: `executeWithFallbacks` walks the chain primary-first: with a failing
prefix followed by a succeeding model it returns that model's response after
calling exactly prefix-length + 1 models; and when every model errs it raises
the error of the last model of the chain — never the generic
all-models-failed error (and, the chain being walked to its end, never the
first provider's error when the two differ). -/
theorem fallback_chain_order_and_last_error {Er : Type} (cfg : LiteLLMConfig)
    (call : String → Except Er String) (now : Int) (k : List Message)
    (c : Cache) (v : String) (errFn : String → Er)
    (ms1 rest : List String) (m mlast : String) :
    (cfg.primaryModel :: cfg.fallbackModels = ms1 ++ m :: rest →
      (∀ x ∈ ms1, ∃ e, call x = .error e) → call m = .ok v →
      (executeWithFallbacks cfg call now k c).1 = .ok v ∧
      (executeWithFallbacks cfg call now k c).2.2 = ms1.length + 1) ∧
    (cfg.primaryModel :: cfg.fallbackModels = ms1 ++ [mlast] →
      (executeWithFallbacks cfg (fun m2 => .error (errFn m2)) now k c).1
        = .error (.providerError (errFn mlast)) ∧
      (executeWithFallbacks cfg (fun m2 => .error (errFn m2)) now k c).2.1
        = c ∧
      (executeWithFallbacks cfg (fun m2 => .error (errFn m2)) now k c).1
        ≠ .error .allModelsFailed) := by
  constructor
  · intro hchain hfail hm
    unfold executeWithFallbacks
    rw [hchain,
      tryModels_first_success cfg.cacheEnabled call now k v ms1 m rest none c
        hfail hm]
    exact ⟨rfl, rfl⟩
  · intro hchain
    unfold executeWithFallbacks
    rw [hchain, tryModels_all_fail cfg.cacheEnabled errFn now k ms1 mlast none c]
    exact ⟨rfl, rfl, by simp⟩

/-- Witness for C2 on the example gateway: the primary answers directly
(prefix length 0, one model called); with every model failing, the raised
error is the fallback model's, i.e. the last of the two-model chain. -/
theorem fallback_chain_order_witness :
    ((executeWithFallbacks exGatewayCfg exCallPrimaryOk 0 exMessages []).1
        = .ok "hello" ∧
     (executeWithFallbacks exGatewayCfg exCallPrimaryOk 0 exMessages []).2.2
        = 0 + 1) ∧
    ((executeWithFallbacks exGatewayCfg exCallAllFail 0 exMessages []).1
        = .error (.providerError ("openai/gpt-4o-mini".length)) ∧
     (executeWithFallbacks exGatewayCfg exCallAllFail 0 exMessages []).2.1
        = [] ∧
     (executeWithFallbacks exGatewayCfg exCallAllFail 0 exMessages []).1
        ≠ .error .allModelsFailed) :=
  ⟨(fallback_chain_order_and_last_error exGatewayCfg exCallPrimaryOk 0
      exMessages [] "hello" (fun m2 => m2.length) [] ["openai/gpt-4o-mini"]
      "ollama/llama3.2" "openai/gpt-4o-mini").1 rfl (by simp) rfl,
   (fallback_chain_order_and_last_error exGatewayCfg exCallAllFail 0
      exMessages [] "hello" (fun m2 => m2.length) ["ollama/llama3.2"] []
      "ollama/llama3.2" "openai/gpt-4o-mini").2 rfl⟩

/-- On a CLOSED breaker a succeeding operation passes straight through:
`execute` returns the success and the breaker after `onSuccess` (with
`totalCalls` already bumped). -/
theorem execute_closed_ok_pair {R Er : Type}
    (cfg : CircuitBreakerConfig R) (cb : CircuitBreaker) (now : Int) (r : R)
    (h : cb.state = .CLOSED) :
    CircuitBreaker.execute cfg cb now (Except.ok r : Except Er R)
      = (CircuitBreaker.onSuccess cfg
          { cb with totalCalls := cb.totalCalls + 1 }, .ok r) := by
  simp [CircuitBreaker.execute, CircuitBreaker.runOperation, h]

/-- C3: with caching and the breaker enabled, starting from an empty cache
and a CLOSED breaker, a `chatSync` whose primary model answers performs
exactly one provider call, and a second `chatSync` with the identical message
list within the TTL window returns the cached response with zero provider
calls and an untouched breaker (its `totalCalls` stays at the one increment
of the first call). -/
theorem cache_hit_single_provider_call {Er : Type} (cfg : LiteLLMConfig)
    (st : AdapterState) (t1 t2 : Int) (msgs : List Message)
    (call1 call2 : String → Except Er String) (resp : String)
    (hce : cfg.cacheEnabled = true) (hcb : cfg.circuitBreakerEnabled = true)
    (hcache : st.cache = []) (hst : st.breaker.state = .CLOSED)
    (hcall : call1 cfg.primaryModel = .ok resp)
    (httl : ((t2 - t1 : Int) : ℚ) / 1000 ≤ cfg.cacheTTLSeconds) :
    (chatSync cfg st t1 msgs call1).providerCalls = 1 ∧
    (chatSync cfg st t1 msgs call1).result = .viaBreaker (.ok resp) ∧
    (chatSync cfg st t1 msgs call1).state.breaker.totalCalls
      = st.breaker.totalCalls + 1 ∧
    (chatSync cfg (chatSync cfg st t1 msgs call1).state t2 msgs call2).result
      = .cached resp ∧
    (chatSync cfg (chatSync cfg st t1 msgs call1).state t2 msgs
        call2).providerCalls = 0 ∧
    (chatSync cfg (chatSync cfg st t1 msgs call1).state t2 msgs
        call2).state.breaker
      = (chatSync cfg st t1 msgs call1).state.breaker := by
  rcases st with ⟨c0, cb0⟩
  obtain rfl : c0 = [] := hcache
  have hst0 : cb0.state = .CLOSED := hst
  have hget1 : getFromCache cfg [] t1 msgs = (none, []) := by
    simp [getFromCache, Cache.lookup]
  have hrun1 : executeWithFallbacks cfg call1 t1 msgs []
      = (.ok resp, [(msgs, ⟨resp, t1⟩)], 1) := by
    simp [executeWithFallbacks, tryModels, hcall, setCache, Cache.set, hce]
  have hexec : CircuitBreaker.execute breakerConfig cb0 t1
      ((.ok resp : Except (GatewayError Er) String))
      = (CircuitBreaker.onSuccess breakerConfig
          { cb0 with totalCalls := cb0.totalCalls + 1 }, .ok resp) :=
    execute_closed_ok_pair breakerConfig cb0 t1 resp hst0
  have ho1 : chatSync cfg ⟨[], cb0⟩ t1 msgs call1
      = ⟨.viaBreaker (.ok resp),
         ⟨[(msgs, ⟨resp, t1⟩)],
          CircuitBreaker.onSuccess breakerConfig
            { cb0 with totalCalls := cb0.totalCalls + 1 }⟩, 1⟩ := by
    simp [chatSync, hget1, hrun1, hcb, hexec, CircuitBreaker.ExecResult.invokedOp]
  have httl2 : ((t2 : ℚ) - (t1 : ℚ)) / 1000 ≤ cfg.cacheTTLSeconds := by
    push_cast at httl
    exact httl
  have hno : ¬ (cfg.cacheTTLSeconds < ((t2 : ℚ) - (t1 : ℚ)) / 1000) :=
    not_lt.mpr httl2
  have hget2 : getFromCache cfg [(msgs, ⟨resp, t1⟩)] t2 msgs
      = (some resp, [(msgs, ⟨resp, t1⟩)]) := by
    simp [getFromCache, Cache.lookup, hce, hno]
  have ho2 : ∀ cb1 : CircuitBreaker,
      chatSync cfg ⟨[(msgs, ⟨resp, t1⟩)], cb1⟩ t2 msgs call2
        = ⟨.cached resp, ⟨[(msgs, ⟨resp, t1⟩)], cb1⟩, 0⟩ := by
    intro cb1
    simp [chatSync, hget2]
  have htc := (CircuitBreaker.onSuccess_fields breakerConfig
    { cb0 with totalCalls := cb0.totalCalls + 1 }).1
  refine ⟨?_, ?_, ?_, ?_, ?_, ?_⟩ <;>
    simp [ho1, ho2, htc]

/-- Witness for C3 on the example gateway: first call at time 0, second call
with the same message at time 100000 ms (100 s, inside the 300 s TTL). -/
theorem cache_hit_single_provider_call_witness :
    (chatSync exGatewayCfg ⟨[], .init⟩ 0 exMessages exCallPrimaryOk).providerCalls
      = 1 ∧
    (chatSync exGatewayCfg ⟨[], .init⟩ 0 exMessages exCallPrimaryOk).result
      = .viaBreaker (.ok "hello") ∧
    (chatSync exGatewayCfg ⟨[], .init⟩ 0 exMessages
        exCallPrimaryOk).state.breaker.totalCalls
      = CircuitBreaker.init.totalCalls + 1 ∧
    (chatSync exGatewayCfg
        (chatSync exGatewayCfg ⟨[], .init⟩ 0 exMessages exCallPrimaryOk).state
        100000 exMessages exCallAllFail).result = .cached "hello" ∧
    (chatSync exGatewayCfg
        (chatSync exGatewayCfg ⟨[], .init⟩ 0 exMessages exCallPrimaryOk).state
        100000 exMessages exCallAllFail).providerCalls = 0 ∧
    (chatSync exGatewayCfg
        (chatSync exGatewayCfg ⟨[], .init⟩ 0 exMessages exCallPrimaryOk).state
        100000 exMessages exCallAllFail).state.breaker
      = (chatSync exGatewayCfg ⟨[], .init⟩ 0 exMessages
          exCallPrimaryOk).state.breaker :=
  cache_hit_single_provider_call exGatewayCfg ⟨[], .init⟩ 0 100000 exMessages
    exCallPrimaryOk exCallAllFail "hello" rfl rfl rfl rfl rfl
    (by norm_num [exGatewayCfg])

end LiteLLMAdapter

end HealthTracker
